import Mathlib

/-!
Verification of the LedController web console (`src/static/app.js`).

The file shallowly embeds the command-translation, message-log, suggestion
and inbound-classification logic of `app.js`.  JavaScript string primitives
(`trim`, `toLowerCase`, `split`, `includes`, `parseInt`, `startsWith`) are
modelled as executable functions on `String`/`List Char`; everything else is
translated directly from the source.
-/

namespace LedController

/-- Message severities used by `app.js` (`type` field of a log entry). -/
inductive Severity where
  | info
  | status
  | error
  | warning
  | debug
  | command
deriving DecidableEq, Repr

/-- A log entry: `{ text, type }` as pushed onto `messages.value`. -/
structure Msg where
  text : String
  type : Severity
deriving DecidableEq, Repr

/-! ### JavaScript string primitives, modelled on `List Char` -/

/-- Model of JavaScript `String.prototype.trim`. -/
def jsTrim (s : String) : String :=
  ⟨((s.data.dropWhile Char.isWhitespace).reverse.dropWhile Char.isWhitespace).reverse⟩

/-- Model of JavaScript `String.prototype.toLowerCase` (ASCII-faithful). -/
def jsToLower (s : String) : String :=
  ⟨s.data.map Char.toLower⟩

/-- Split a character list at every character satisfying `p`, keeping empty
pieces — the semantics of JavaScript `split` with a single-character (or
single-class) separator.  Never returns `[]`. -/
def splitP (p : Char → Bool) : List Char → List (List Char)
  | [] => [[]]
  | c :: cs =>
    let r := splitP p cs
    if p c then [] :: r
    else (c :: r.headD []) :: r.tail

/-- Model of JavaScript `s.split(",")`. -/
def jsSplitComma (s : String) : List String :=
  (splitP (fun c => c = ',') s.data).map (fun l => ⟨l⟩)

/-- Model of JavaScript `s.split(" ")` (single-space separator, keeps empties). -/
def jsSplitSpace (s : String) : List String :=
  (splitP (fun c => c = ' ') s.data).map (fun l => ⟨l⟩)

/-- Model of JavaScript `args.trim().split(/\s+/)`: on the empty (or all-blank)
string JavaScript yields `[""]`; otherwise the maximal non-blank runs. -/
def splitWS (s : String) : List String :=
  let t := jsTrim s
  if t.data.isEmpty then [""]
  else ((splitP Char.isWhitespace t.data).filter (fun r => !r.isEmpty)).map (fun l => ⟨l⟩)

/-- Model of JavaScript `s.includes(c)` for a single character `c`. -/
def containsChar (ch : Char) : List Char → Bool
  | [] => false
  | c :: cs => c = ch || containsChar ch cs

/-- Boolean: list `pre` is a leading segment of the second list. -/
def leadsList : List Char → List Char → Bool
  | [], _ => true
  | _ :: _, [] => false
  | p :: ps, c :: cs => p = c && leadsList ps cs

/-- Model of JavaScript `s.includes(sub)` (substring containment). -/
def hasSubList (pat : List Char) : List Char → Bool
  | [] => pat.isEmpty
  | c :: cs => leadsList pat (c :: cs) || hasSubList pat cs

/-- Model of JavaScript `s.includes(sub)` on strings. -/
def jsIncludes (s sub : String) : Bool :=
  hasSubList sub.data s.data

/-- Model of JavaScript `s.startsWith(pre)`. -/
def jsStartsWith (s pre : String) : Bool :=
  leadsList pre.data s.data

/-- Longest leading run of decimal digits. -/
def digitsPre : List Char → List Char
  | [] => []
  | c :: cs => if c.isDigit then c :: digitsPre cs else []

/-- Numeric value of a digit run. -/
def digitsVal (ds : List Char) : Nat :=
  ds.foldl (fun a c => a * 10 + (c.toNat - 48)) 0

/-- Parse an unsigned decimal prefix; `none` models `NaN` (no digits). -/
def parseDigits (cs : List Char) : Option Int :=
  match digitsPre cs with
  | [] => none
  | ds => some (digitsVal ds : Nat)

/-- Model of JavaScript `parseInt(s, 10)`: skip blanks, optional sign, then the
longest digit run; `none` models `NaN`. -/
def parseIntJS (s : String) : Option Int :=
  match (jsTrim s).data with
  | '-' :: rest => (parseDigits rest).map (fun n => -n)
  | '+' :: rest => parseDigits rest
  | cs => parseDigits cs

/-! ### Payloads built by `sendCommand` -/

/-- The structured JSON payloads `sendCommand` builds (`app.js` lines 126-266).
`Option Int` fields model `parseInt` results, `none` standing for `NaN`. -/
inductive Payload where
  | log (data : String)
  | videolist
  | video (data : String)
  | stop
  | brightness (n : Int)
  | piano (controller window : Option Int) (persistent : Bool) (color : List (Option Int))
  | christmas
  | setall (data : String)
  | update (data : List String)
  | difference (data : List (String × String))
deriving DecidableEq, Repr

/-! ### The piano command (`app.js` lines 158-222) -/

/-- Error pushed when `piano` has no tokens at all (`app.js` line 162). -/
def needsArgsError : Msg :=
  ⟨"Error: piano command requires at least a controller and window index", .error⟩

/-- Error pushed when controller/window cannot both be extracted (`app.js` lines 173, 184). -/
def needsCWError : Msg :=
  ⟨"Error: piano command requires a controller and window index", .error⟩

/-- Error pushed for a comma token that does not have exactly 3 parts (`app.js` line 204). -/
def rgbFormatError : Msg :=
  ⟨"Error: color must be in the format R,G,B", .error⟩

/-- The `tokens.forEach` scan of `app.js` lines 196-211.  State threaded:
`persistent` flag, current `color`, error messages pushed so far.  The
JavaScript `return` inside the callback only skips the current token, so a
malformed comma token records an error and the scan continues. -/
def scanTokens : List String → Bool → List (Option Int) → List Msg →
    Bool × List (Option Int) × List Msg
  | [], persistent, color, errs => (persistent, color, errs)
  | tok :: rest, persistent, color, errs =>
    let t := jsTrim tok
    if jsToLower t = "persistent" then
      scanTokens rest true color errs
    else if containsChar ',' t.data then
      let colorParts := jsSplitComma t
      if colorParts.length ≠ 3 then
        scanTokens rest persistent color (errs ++ [rgbFormatError])
      else
        scanTokens rest persistent (colorParts.map (fun p => parseIntJS (jsTrim p))) errs
    else
      scanTokens rest persistent color errs

/-- Build the piano payload from extracted controller/window and the remaining
tokens (`app.js` lines 194-221): scan sets `persistent`/`color`, defaults
`false` and `[255,255,255]`. -/
def finishPiano (controller window : Option Int) (rest : List String) :
    List Msg × Option Payload :=
  match scanTokens rest false [some 255, some 255, some 255] [] with
  | (persistent, color, errs) =>
    (errs, some (.piano controller window persistent color))

/-- The `piano` case of `sendCommand` after whitespace tokenisation
(`app.js` lines 159-222).  Result: error messages pushed, and the payload if
one is built. -/
def pianoTokens : List String → List Msg × Option Payload
  | [] => ([needsArgsError], none)
  | t0 :: rest =>
    if containsChar ',' t0.data then
      let cw := jsSplitComma t0
      if cw.length < 2 then ([needsCWError], none)
      else
        finishPiano (parseIntJS (jsTrim (cw.getD 0 "")))
          (parseIntJS (jsTrim (cw.getD 1 ""))) rest
    else
      match rest with
      | [] => ([needsCWError], none)
      | t1 :: rest2 =>
        finishPiano (parseIntJS (jsTrim t0)) (parseIntJS (jsTrim t1)) rest2

/-- The `piano` case of `sendCommand` on the raw argument string. -/
def pianoTranslate (args : String) : List Msg × Option Payload :=
  pianoTokens (splitWS args)

/-! ### The update and difference commands (`app.js` lines 237-266) -/

/-- Error pushed by the `update` case (`app.js` line 242). -/
def updateError : Msg :=
  ⟨"update command requires 400 comma-separated hex colors", .error⟩

/-- The `update` case of `sendCommand` (`app.js` lines 237-248): comma-split,
trim each entry, require exactly 400 entries. -/
def updateTranslate (args : String) : List Msg × Option Payload :=
  let hexColors := (jsSplitComma args).map jsTrim
  if hexColors.length ≠ 400 then ([updateError], none)
  else ([], some (.update hexColors))

/-- Model of JavaScript `s.replace(/[()]/g, "")`. -/
def stripParens (s : String) : String :=
  ⟨s.data.filter (fun c => c ≠ '(' && c ≠ ')')⟩

/-- The pairing loop of the `difference` case (`app.js` lines 259-264):
consecutive elements are paired, parentheses stripped from both. -/
def pairUp : List String → List (String × String)
  | a :: b :: rest => (stripParens a, stripParens b) :: pairUp rest
  | _ => []

/-- Error pushed by the `difference` case (`app.js` line 254). -/
def differenceError : Msg :=
  ⟨"difference command requires pairs of values", .error⟩

/-- The `difference` case of `sendCommand` (`app.js` lines 249-266). -/
def differenceTranslate (args : String) : List Msg × Option Payload :=
  let diffParts := (jsSplitComma args).map jsTrim
  if diffParts.length % 2 ≠ 0 then ([differenceError], none)
  else ([], some (.difference (pairUp diffParts)))

/-! ### The full command dispatcher (`app.js` lines 111-273, non-JSON branch) -/

/-- Error pushed for an unrecognized command name (`app.js` line 269). -/
def unknownCommandError : Msg := ⟨"Unknown command", .error⟩

/-- The `switch (command)` of `sendCommand` once the input failed to parse as
raw JSON (`app.js` lines 122-273): split on single spaces, dispatch on the
lower-cased first part, hand the re-joined remainder to the per-command
builder. -/
def translateCmd (cmdText : String) : List Msg × Option Payload :=
  let parts := jsSplitSpace cmdText
  let command := jsToLower (parts.getD 0 "")
  let args := String.intercalate " " (parts.drop 1)
  if command = "log" then
    ([], some (.log (if args = "" then "info" else jsToLower args)))
  else if command = "videolist" then ([], some .videolist)
  else if command = "video" then
    if args = "" then ([⟨"video command requires a video name", .error⟩], none)
    else ([], some (.video args))
  else if command = "stop" then ([], some .stop)
  else if command = "brightness" then
    match parseIntJS args with
    | none => ([⟨"brightness command requires a numeric value", .error⟩], none)
    | some n => ([], some (.brightness n))
  else if command = "piano" then pianoTranslate args
  else if command = "christmas" then ([], some .christmas)
  else if command = "setall" then
    if args = "" ∨ args.data.length ≠ 6 then
      ([⟨"setall command requires a 6-digit hex color", .error⟩], none)
    else ([], some (.setall args))
  else if command = "update" then updateTranslate args
  else if command = "difference" then differenceTranslate args
  else ([unknownCommandError], none)

/-! ### The message log (`messages.value` with `MAX_MESSAGES`) -/

/-- The cap on the message log (`app.js` line 28). -/
def MAX_MESSAGES : Nat := 100

/-- A push followed by the cap check, as in `app.js` lines 66-87 (inbound
messages) and 280-283 (outbound command echo): push at the tail; if the
length now exceeds `MAX_MESSAGES`, `shift()` removes exactly the head. -/
def capAppend (log : List Msg) (m : Msg) : List Msg :=
  let l := log ++ [m]
  if MAX_MESSAGES < l.length then l.tail else l

/-- A bare push with no cap check, as in `socket.onopen`/`onerror`/`onclose`,
the validation-error pushes inside `sendCommand`, and every push in
`checkHealth` (`app.js` lines 359-388). -/
def rawAppend (log : List Msg) (m : Msg) : List Msg := log ++ [m]

/-- The code paths that append to `messages.value`. -/
inductive LogSource where
  | inboundMessage
  | commandEcho
  | connectionEvent
  | healthAudit
  | validationError
deriving DecidableEq, Repr

/-- Which appends run the `MAX_MESSAGES` cap check: only the inbound-message
handler and the successful-send echo do; connection events, `checkHealth`
results and validation errors push without it. -/
def appendFrom (src : LogSource) (log : List Msg) (m : Msg) : List Msg :=
  match src with
  | .inboundMessage => capAppend log m
  | .commandEcho => capAppend log m
  | .connectionEvent => rawAppend log m
  | .healthAudit => rawAppend log m
  | .validationError => rawAppend log m

/-- The append performed by one `checkHealth` round on a health report
(`app.js` lines 366-378): one aggregated warning naming the non-"OK" devices,
or one info entry; in either case a bare push with no cap check. -/
def checkHealthAppend (log : List Msg) (report : List (String × String)) : List Msg :=
  let unreachable := report.filter (fun e => e.2 ≠ "OK")
  if 0 < unreachable.length then
    rawAppend log
      ⟨"Warning: The following devices are unreachable: " ++
        String.intercalate ", " (unreachable.map (fun e => e.1)), .warning⟩
  else
    rawAppend log ⟨"All devices are healthy.", .info⟩

/-! ### Sending over the socket (`app.js` lines 276-294) -/

/-- The reactive state touched by the tail of `sendCommand`. -/
structure AppState where
  currentCommand : String
  messages : List Msg
  filteredSuggestions : List String
  selectedSuggestionIndex : Int
deriving Repr

/-- The tail of `sendCommand` (`app.js` lines 276-294) given the serialized
payload: when the socket is open, send, echo the command (cap-checked), clear
the input and the suggestions; otherwise push one error entry and change
nothing else.  The second component is the transmitted wire message, if any. -/
def sendOverSocket (connected : Bool) (jsonMessage : String) (st : AppState) :
    AppState × Option String :=
  if connected then
    ({ st with
        messages := capAppend st.messages ⟨"> " ++ jsonMessage, .command⟩,
        currentCommand := "",
        filteredSuggestions := [],
        selectedSuggestionIndex := -1 }, some jsonMessage)
  else
    ({ st with messages := rawAppend st.messages ⟨"WebSocket not connected.", .error⟩ },
      none)

/-! ### The suggestion engine (`app.js` lines 297-344) -/

/-- The static autocomplete vocabulary (`app.js` lines 12-23). -/
def knownCommands : List String :=
  ["log [level]",
   "videolist",
   "video <video_name>",
   "stop",
   "brightness <0-255>",
   "piano <controller,window> [persistent] [r, g, b]",
   "christmas",
   "setall <6-digit hex>",
   "update <400 comma-separated hex colors>",
   "difference <(index), hex, (index), hex, ...>"]

/-- `filterSuggestions` (`app.js` lines 297-320): lower-case the input; empty
input clears everything; otherwise case-insensitive prefix matches from
`knownCommands` followed by `"video " ++ name` for each known video, and the
cursor is reset to `-1`. -/
def filterSuggestions (current : String) (videoList : List String) :
    List String × Int :=
  let input := jsToLower current
  if input = "" then ([], -1)
  else
    let staticSuggestions := knownCommands.filter (fun cmd => jsStartsWith (jsToLower cmd) input)
    let dynamicSuggestions :=
      (videoList.map (fun video => "video " ++ video)).filter
        (fun sug => jsStartsWith (jsToLower sug) input)
    (staticSuggestions ++ dynamicSuggestions, -1)

/-- The suggestion-related reactive state. -/
structure SugState where
  currentCommand : String
  filteredSuggestions : List String
  selectedSuggestionIndex : Int
deriving DecidableEq, Repr

/-- JavaScript's `%` remainder on integers: the sign follows the dividend. -/
def jsRem (a b : Int) : Int :=
  if 0 ≤ a then a % b else -((-a) % b)

/-- `selectNextSuggestion` (`app.js` lines 322-328): no-op on an empty
candidate list; otherwise advance the cursor by one modulo the candidate count
and copy that candidate into the input.  (List indexing is total here via
`getD`; the cursor invariant keeps the index in range.) -/
def selectNextSuggestion (st : SugState) : SugState :=
  if 0 < st.filteredSuggestions.length then
    let i := jsRem (st.selectedSuggestionIndex + 1) st.filteredSuggestions.length
    { st with
        selectedSuggestionIndex := i,
        currentCommand := st.filteredSuggestions.getD i.toNat "" }
  else st

/-- `selectPrevSuggestion` (`app.js` lines 330-338): no-op on an empty
candidate list; otherwise decrement, wrapping `< 0` to the last index, and
copy that candidate into the input. -/
def selectPrevSuggestion (st : SugState) : SugState :=
  if 0 < st.filteredSuggestions.length then
    let i0 := st.selectedSuggestionIndex - 1
    let i := if i0 < 0 then (st.filteredSuggestions.length : Int) - 1 else i0
    { st with
        selectedSuggestionIndex := i,
        currentCommand := st.filteredSuggestions.getD i.toNat "" }
  else st

/-- `chooseSuggestion` (`app.js` lines 340-344). -/
def chooseSuggestion (st : SugState) (index : Nat) : SugState :=
  { currentCommand := st.filteredSuggestions.getD index "",
    filteredSuggestions := [],
    selectedSuggestionIndex := -1 }

/-! ### Inbound message classification (`socket.onmessage`, `app.js` lines 51-89) -/

/-- The outcome of `JSON.parse(event.data)`, abstracted: either it succeeded
(with the duck-typed fields `onmessage` inspects — `error`, `status`,
`videos` — and the `JSON.stringify` rendering used for display), or it threw
and the raw text is inspected instead. -/
inductive Inbound where
  | json (err : Option String) (status : Option String)
      (videos : Option (List String)) (stringified : String)
  | text (raw : String)
deriving DecidableEq, Repr

/-- The classification pipeline of `socket.onmessage` (`app.js` lines 51-83):
returns the log entry produced and the (possibly refreshed) video vocabulary.
On parsed JSON: a `videos` array refreshes the vocabulary; an `error` field
classifies `error`, else a `status` field classifies `status`, else `info`
with the stringified object as display text.  On a parse failure: `debug` if
the lower-cased raw text contains "debug", else `error` if it contains
"error", else `info`. -/
def classifyInbound (videoList : List String) (m : Inbound) : Msg × List String :=
  match m with
  | .json err status videos stringified =>
    let newVideos := match videos with
      | some v => v
      | none => videoList
    let messageType : Severity :=
      if err.isSome then .error
      else if status.isSome then .status
      else .info
    let text := match err with
      | some e => e
      | none => match status with
        | some s => s
        | none => stringified
    (⟨text, messageType⟩, newVideos)
  | .text raw =>
    let dataLower := jsToLower raw
    let messageType : Severity :=
      if jsIncludes dataLower "debug" then .debug
      else if jsIncludes dataLower "error" then .error
      else .info
    (⟨raw, messageType⟩, videoList)

/-- A concrete message log filled to the cap, for witnesses. -/
def log100 : List Msg := List.replicate 100 ⟨"m", .info⟩

/-- The suggestion-cursor invariant: `-1` ("none selected") or a valid index
into the current candidate list. -/
def cursorInv (st : SugState) : Prop :=
  st.selectedSuggestionIndex = -1 ∨
    (0 ≤ st.selectedSuggestionIndex ∧
      st.selectedSuggestionIndex < st.filteredSuggestions.length)

instance (st : SugState) : Decidable (cursorInv st) := by
  unfold cursorInv; infer_instance

/-! ## Helper lemmas -/

theorem splitP_ne_nil (p : Char → Bool) (l : List Char) : splitP p l ≠ [] := by
  cases l with
  | nil => simp [splitP]
  | cons c cs => simp only [splitP]; split <;> simp

theorem splitP_no_sep (p : Char → Bool) {l : List Char}
    (h : ∀ x ∈ l, p x = false) : splitP p l = [l] := by
  induction l with
  | nil => rfl
  | cons c cs ih =>
    have hc : p c = false := h c (List.mem_cons_self _ _)
    have ht : splitP p cs = [cs] := ih (fun x hx => h x (List.mem_cons_of_mem _ hx))
    simp [splitP, hc, ht]

theorem splitP_sep_split (p : Char → Bool) {a : List Char} (s : Char) (b : List Char)
    (ha : ∀ x ∈ a, p x = false) (hs : p s = true) :
    splitP p (a ++ s :: b) = a :: splitP p b := by
  induction a with
  | nil => simp [splitP, hs]
  | cons x xs ih =>
    have hx : p x = false := ha x (List.mem_cons_self _ _)
    have ht : splitP p (xs ++ s :: b) = xs :: splitP p b :=
      ih (fun y hy => ha y (List.mem_cons_of_mem _ hy))
    simp [splitP, hx, ht]

theorem splitP_replicate (p : Char → Bool) {s : Char} (hs : p s = true) (n : Nat) :
    splitP p (List.replicate n s) = List.replicate (n + 1) [] := by
  induction n with
  | zero => rfl
  | succ n ih => simp [List.replicate_succ, splitP, hs, ih]

theorem containsChar_of_mem {ch : Char} {l : List Char} (h : ch ∈ l) :
    containsChar ch l = true := by
  induction l with
  | nil => cases h
  | cons c cs ih =>
    rcases List.mem_cons.mp h with h' | h'
    · simp [containsChar, h']
    · simp [containsChar, ih h']

theorem containsChar_eq_false {ch : Char} {l : List Char} (h : ch ∉ l) :
    containsChar ch l = false := by
  induction l with
  | nil => rfl
  | cons c cs ih =>
    have hne : c ≠ ch := fun he => h (he ▸ List.mem_cons_self _ _)
    have ht : ch ∉ cs := fun hm => h (List.mem_cons_of_mem _ hm)
    simp [containsChar, hne, ih ht]

theorem jsSplitComma_of_sep {c w : List Char} (hc : ',' ∉ c) (hw : ',' ∉ w) :
    jsSplitComma ⟨c ++ ',' :: w⟩ = [⟨c⟩, ⟨w⟩] := by
  have ha : ∀ x ∈ c, (decide (x = ',')) = false :=
    fun x hx => decide_eq_false (fun he => hc (he ▸ hx))
  have hb : ∀ x ∈ w, (decide (x = ',')) = false :=
    fun x hx => decide_eq_false (fun he => hw (he ▸ hx))
  show (splitP _ (c ++ ',' :: w)).map _ = _
  rw [splitP_sep_split _ ',' w ha (by simp), splitP_no_sep _ hb]
  rfl

theorem pairUp_length : ∀ l : List String, (pairUp l).length = l.length / 2
  | [] => rfl
  | [_] => by simp [pairUp]
  | _ :: _ :: rest => by
    have h := pairUp_length rest
    simp only [pairUp, List.length_cons, h]
    omega

theorem pairUp_entries : ∀ (l : List String) (i : Nat),
    (pairUp l).get? i =
      (l.get? (2 * i)).bind fun a =>
        (l.get? (2 * i + 1)).map fun b => (stripParens a, stripParens b)
  | [], i => by simp [pairUp]
  | [a], i => by cases i <;> simp [pairUp]
  | a :: b :: rest, 0 => by simp [pairUp]
  | a :: b :: rest, i + 1 => by
    have h := pairUp_entries rest i
    have e1 : 2 * (i + 1) = 2 * i + 1 + 1 := by ring
    have e2 : 2 * (i + 1) + 1 = 2 * i + 1 + 1 + 1 := by ring
    simp only [pairUp, List.get?_cons_succ, e1, e2, h]

/-! ## Claims -/

/-- Claim C1, counterexample: the claim says every append — including a
health-audit result — keeps the log at or below the cap of 100, but
`checkHealth` pushes with no cap check: appending its result to a log of
exactly 100 entries leaves 101 entries. -/
theorem health_audit_append_exceeds_cap :
    log100.length = MAX_MESSAGES ∧
    (checkHealthAppend log100 []).length = 101 ∧
    ¬ (checkHealthAppend log100 []).length ≤ MAX_MESSAGES := by
  refine ⟨by simp [log100, MAX_MESSAGES], ?_, ?_⟩ <;>
    simp [checkHealthAppend, rawAppend, log100, MAX_MESSAGES]

/-- Claim C1, amended: only the inbound-message handler and the
successful-send command echo run the cap check; for those two sources an
append onto a log of at most 100 entries leaves at most 100 entries, and at
exactly the cap it evicts exactly the oldest entry, preserving the order of
the rest. -/
theorem capped_sources_preserve_cap (src : LogSource) (log : List Msg) (m : Msg)
    (hsrc : src = .inboundMessage ∨ src = .commandEcho)
    (h : log.length ≤ MAX_MESSAGES) :
    (appendFrom src log m).length ≤ MAX_MESSAGES ∧
    (log.length = MAX_MESSAGES → appendFrom src log m = log.tail ++ [m]) := by
  have hcap : appendFrom src log m = capAppend log m := by
    rcases hsrc with h' | h' <;> subst h' <;> rfl
  rw [hcap]
  unfold capAppend
  by_cases hlen : MAX_MESSAGES < (log ++ [m]).length
  · rw [if_pos hlen]
    have h100 : log.length = MAX_MESSAGES := by
      simp only [List.length_append, List.length_singleton, MAX_MESSAGES] at hlen h ⊢
      omega
    cases log with
    | nil => simp [MAX_MESSAGES] at h100
    | cons a l' =>
      refine ⟨?_, fun _ => by simp⟩
      simp only [List.cons_append, List.tail_cons, List.length_append,
        List.length_singleton, MAX_MESSAGES]
      simp only [List.length_cons, MAX_MESSAGES] at h100
      omega
  · rw [if_neg hlen]
    simp only [not_lt, List.length_append, List.length_singleton, MAX_MESSAGES] at hlen
    refine ⟨by simp only [List.length_append, List.length_singleton, MAX_MESSAGES]; omega,
      fun hc => ?_⟩
    rw [MAX_MESSAGES] at hc
    omega

/-- Witness for `capped_sources_preserve_cap` at the inbound-message source and
a log of exactly 100 entries. -/
theorem capped_sources_preserve_cap_witness :
    ((LogSource.inboundMessage = LogSource.inboundMessage ∨
        LogSource.inboundMessage = LogSource.commandEcho) ∧
      log100.length ≤ MAX_MESSAGES) ∧
    ((appendFrom .inboundMessage log100 ⟨"n", .info⟩).length ≤ MAX_MESSAGES ∧
      (log100.length = MAX_MESSAGES →
        appendFrom .inboundMessage log100 ⟨"n", .info⟩ = log100.tail ++ [⟨"n", .info⟩])) :=
  ⟨⟨Or.inl rfl, by simp [log100, MAX_MESSAGES]⟩,
    capped_sources_preserve_cap _ log100 _ (Or.inl rfl) (by simp [log100, MAX_MESSAGES])⟩

/-- Claim C2 (code-bug evidence): a `piano` command whose comma token has two
parts instead of three — `piano 1,2 0,0` — logs the R,G,B format error, yet
the translation still builds the payload (with the default colour), because
the `return` in the `forEach` callback only skips that token; the payload is
then serialized and sent.  The spec requires that a ValidationError send
nothing. -/
theorem piano_bad_color_token_logs_error_but_still_builds_payload :
    pianoTranslate "1,2 0,0" =
      ([rgbFormatError],
        some (.piano (some 1) (some 2) false [some 255, some 255, some 255])) := by
  decide

/-- Claim C3: for the `piano` command, giving controller and window as the
single comma token `c,w` or as the two whitespace tokens `c w`, with identical
remaining tokens, produces identical translation results — in particular
numerically identical controller and window fields. -/
theorem piano_comma_form_agrees_with_two_token_form (c w : List Char)
    (rest : List String) (hc : ',' ∉ c) (hw : ',' ∉ w) :
    pianoTokens (⟨c ++ ',' :: w⟩ :: rest) = pianoTokens (⟨c⟩ :: ⟨w⟩ :: rest) := by
  have hcc : containsChar ',' (c ++ ',' :: w) = true :=
    containsChar_of_mem (by simp)
  have hc2 : containsChar ',' c = false := containsChar_eq_false hc
  have hsplit := jsSplitComma_of_sep hc hw
  simp [pianoTokens, hcc, hc2, hsplit]

/-- Witness for `piano_comma_form_agrees_with_two_token_form`:
`piano 1,2 persistent` versus `piano 1 2 persistent`. -/
theorem piano_comma_form_agrees_with_two_token_form_witness :
    (',' ∉ ['1'] ∧ ',' ∉ ['2']) ∧
    pianoTokens (⟨['1'] ++ ',' :: ['2']⟩ :: ["persistent"]) =
      pianoTokens (⟨['1']⟩ :: ⟨['2']⟩ :: ["persistent"]) :=
  ⟨by decide,
    piano_comma_form_agrees_with_two_token_form ['1'] ['2'] ["persistent"]
      (by decide) (by decide)⟩

/-- Claim C4, counterexample: `piano a b` has a controller token that does not
parse as an integer, yet translation does not fail — no error entry is pushed
and a payload is built, with `parseInt`'s `NaN` (modelled `none`) as
controller and window. -/
theorem piano_nonnumeric_controller_still_builds_payload :
    parseIntJS "a" = none ∧
    (pianoTranslate "a b").1 = [] ∧
    (pianoTranslate "a b").2 =
      some (.piano none none false [some 255, some 255, some 255]) := by
  decide

/-- Claim C4, amended: a controller or window value that does not parse as an
integer never causes a ValidationError — in both the comma form (a first
token containing a comma that splits into at least two parts) and the
two-token form (a comma-free first token followed by at least one more token)
a payload is always built, carrying the raw `parseInt` results (`none` =
`NaN`) as controller and window — and only a missing value is rejected: a
comma token whose split has fewer than two parts, a comma-free first token
with no second token, or no tokens at all. -/
theorem piano_builds_payload_unless_value_missing (t0 w : String) (p0 p1 : String)
    (ps rest : List String) (c : List Char) :
    (containsChar ',' t0.data = true → jsSplitComma t0 = p0 :: p1 :: ps →
      ∃ persistent color errs,
        pianoTokens (t0 :: rest) =
          (errs, some (.piano (parseIntJS (jsTrim p0)) (parseIntJS (jsTrim p1))
            persistent color))) ∧
    (',' ∉ c →
      ∃ persistent color errs,
        pianoTokens (⟨c⟩ :: w :: rest) =
          (errs, some (.piano (parseIntJS (jsTrim ⟨c⟩)) (parseIntJS (jsTrim w))
            persistent color))) ∧
    (containsChar ',' t0.data = true → (jsSplitComma t0).length < 2 →
      pianoTokens (t0 :: rest) = ([needsCWError], none)) ∧
    (',' ∉ c → pianoTokens [⟨c⟩] = ([needsCWError], none)) ∧
    pianoTokens ([] : List String) = ([needsArgsError], none) := by
  refine ⟨fun hcomma hsplit => ?_, fun hc => ?_, fun hcomma hlen => ?_, fun hc => ?_, rfl⟩
  · have h2 : ¬ (jsSplitComma t0).length < 2 := by
      rw [hsplit]
      simp only [List.length_cons]
      omega
    rcases hsc : scanTokens rest false [some 255, some 255, some 255] [] with ⟨p, col, errs⟩
    refine ⟨p, col, errs, ?_⟩
    simp [pianoTokens, hcomma, h2, hsplit, List.getD_cons_zero, List.getD_cons_succ,
      finishPiano, hsc]
  · rcases hsc : scanTokens rest false [some 255, some 255, some 255] [] with ⟨p, col, errs⟩
    refine ⟨p, col, errs, ?_⟩
    simp [pianoTokens, containsChar_eq_false hc, finishPiano, hsc]
  · simp [pianoTokens, hcomma, hlen]
  · simp [pianoTokens, containsChar_eq_false hc]

/-- Witness for `piano_builds_payload_unless_value_missing`: the comma form
`piano a,b`, the two-token form `piano a b`, and the one-token rejection
`piano a`. -/
theorem piano_builds_payload_unless_value_missing_witness :
    (containsChar ',' ("a,b" : String).data = true ∧
      jsSplitComma "a,b" = ["a", "b"] ∧ ',' ∉ ['a']) ∧
    (∃ persistent color errs,
      pianoTokens ["a,b"] =
        (errs, some (.piano (parseIntJS (jsTrim "a")) (parseIntJS (jsTrim "b"))
          persistent color))) ∧
    (∃ persistent color errs,
      pianoTokens (⟨['a']⟩ :: "b" :: []) =
        (errs, some (.piano (parseIntJS (jsTrim ⟨['a']⟩)) (parseIntJS (jsTrim "b"))
          persistent color))) ∧
    pianoTokens [⟨['a']⟩] = ([needsCWError], none) :=
  ⟨⟨by decide, by decide, by decide⟩,
    (piano_builds_payload_unless_value_missing "a,b" "b" "a" "b" [] [] ['a']).1
      (by decide) (by decide),
    (piano_builds_payload_unless_value_missing "a,b" "b" "a" "b" [] [] ['a']).2.1
      (by decide),
    (piano_builds_payload_unless_value_missing "a,b" "b" "a" "b" [] [] ['a']).2.2.2.1
      (by decide)⟩

/-- Claim C5: `update` translation succeeds exactly when the comma-split,
trimmed argument has 400 entries, carrying the entry list verbatim, and
rejects otherwise — checked in general and at the concrete entry counts
400, 399 and 401 (argument strings of 399, 398 and 400 commas). -/
theorem update_succeeds_iff_400_entries (args : String) :
    (updateTranslate args =
      if ((jsSplitComma args).map jsTrim).length = 400
      then ([], some (.update ((jsSplitComma args).map jsTrim)))
      else ([updateError], none)) ∧
    updateTranslate ⟨List.replicate 399 ','⟩ =
      ([], some (.update (List.replicate 400 ""))) ∧
    updateTranslate ⟨List.replicate 398 ','⟩ = ([updateError], none) ∧
    updateTranslate ⟨List.replicate 400 ','⟩ = ([updateError], none) := by
  have key : ∀ n : Nat, (jsSplitComma ⟨List.replicate n ','⟩).map jsTrim =
      List.replicate (n + 1) "" := by
    intro n
    show ((splitP _ (List.replicate n ',')).map _).map jsTrim = _
    rw [splitP_replicate _ (by simp) n]
    simp only [List.map_replicate]
    rfl
  have gen : ∀ a : String, updateTranslate a =
      if ((jsSplitComma a).map jsTrim).length = 400
      then ([], some (.update ((jsSplitComma a).map jsTrim)))
      else ([updateError], none) := by
    intro a
    by_cases h : ((jsSplitComma a).map jsTrim).length = 400 <;>
      simp [updateTranslate, h]
  have k399 := key 399
  have k398 := key 398
  have k400 := key 400
  norm_num at k399 k398 k400
  refine ⟨gen args, ?_, ?_, ?_⟩
  · rw [gen _, k399]
    simp only [List.length_replicate]
    norm_num
  · rw [gen _, k398]
    simp only [List.length_replicate]
    norm_num
  · rw [gen _, k400]
    simp only [List.length_replicate]
    norm_num

/-- Claim C6: `difference` translation succeeds exactly when the comma-split,
trimmed argument has an even entry count, pairing consecutive entries in order
with all parentheses stripped from both elements — `count / 2` pairs, the
`i`-th pair built from entries `2i` and `2i+1` — and on the example input
`"(0), ffffff, (1), 000000"` it yields `[["0","ffffff"],["1","000000"]]`. -/
theorem difference_succeeds_iff_even_entries (args : String) :
    (differenceTranslate args =
      if ((jsSplitComma args).map jsTrim).length % 2 = 0
      then ([], some (.difference (pairUp ((jsSplitComma args).map jsTrim))))
      else ([differenceError], none)) ∧
    (pairUp ((jsSplitComma args).map jsTrim)).length =
      ((jsSplitComma args).map jsTrim).length / 2 ∧
    (∀ i : Nat,
      (pairUp ((jsSplitComma args).map jsTrim)).get? i =
        ((((jsSplitComma args).map jsTrim)).get? (2 * i)).bind fun a =>
          ((((jsSplitComma args).map jsTrim)).get? (2 * i + 1)).map fun b =>
            (stripParens a, stripParens b)) ∧
    differenceTranslate "(0), ffffff, (1), 000000" =
      ([], some (.difference [("0", "ffffff"), ("1", "000000")])) := by
  refine ⟨?_, pairUp_length _, fun i => pairUp_entries _ i, by decide⟩
  have hlen : ((jsSplitComma args).map jsTrim).length = (jsSplitComma args).length :=
    List.length_map _ _
  by_cases h : ((jsSplitComma args).map jsTrim).length % 2 = 0
  · simp [differenceTranslate, hlen, h, hlen ▸ h]
  · have h1 : ((jsSplitComma args).map jsTrim).length % 2 = 1 := by omega
    simp [differenceTranslate, hlen, h, hlen ▸ h1]

theorem selectNext_candidates (st : SugState) :
    (selectNextSuggestion st).filteredSuggestions = st.filteredSuggestions := by
  unfold selectNextSuggestion
  split <;> rfl

theorem selectNext_cursor (st : SugState) (h0 : 0 ≤ st.selectedSuggestionIndex)
    (hlen : 0 < st.filteredSuggestions.length) :
    (selectNextSuggestion st).selectedSuggestionIndex =
      (st.selectedSuggestionIndex + 1) % (st.filteredSuggestions.length : Int) := by
  unfold selectNextSuggestion
  rw [if_pos hlen]
  show jsRem _ _ = _
  unfold jsRem
  rw [if_pos (by omega)]

theorem selectNext_iterate (k : Nat) (st : SugState)
    (h0 : 0 ≤ st.selectedSuggestionIndex)
    (hN : st.selectedSuggestionIndex < st.filteredSuggestions.length) :
    (selectNextSuggestion^[k] st).filteredSuggestions = st.filteredSuggestions ∧
    (selectNextSuggestion^[k] st).selectedSuggestionIndex =
      (st.selectedSuggestionIndex + k) % (st.filteredSuggestions.length : Int) := by
  have hN0 : (0 : Int) < st.filteredSuggestions.length := lt_of_le_of_lt h0 hN
  induction k with
  | zero =>
    refine ⟨rfl, ?_⟩
    simp only [Function.iterate_zero, id_eq, Nat.cast_zero, add_zero]
    exact (Int.emod_eq_of_lt h0 hN).symm
  | succ k ih =>
    obtain ⟨hf, hc⟩ := ih
    have h0' : 0 ≤ (selectNextSuggestion^[k] st).selectedSuggestionIndex := by
      rw [hc]
      exact Int.emod_nonneg _ (ne_of_gt hN0)
    have hlen' : 0 < (selectNextSuggestion^[k] st).filteredSuggestions.length := by
      rw [hf]
      exact_mod_cast hN0
    rw [Function.iterate_succ_apply']
    refine ⟨by rw [selectNext_candidates, hf], ?_⟩
    rw [selectNext_cursor _ h0' hlen', hf, hc, Int.emod_add_emod]
    push_cast
    ring_nf

/-- Claim C7, counterexample: with the single candidate list `["a"]` (so
`N = 1`) and the cursor at its reset position `-1`, one call of
`selectNextSuggestion` moves the cursor to `0`, not back to `-1` — so `next()`
called `N` times does not return the cursor to every starting position. -/
theorem next_from_reset_cursor_is_not_cyclic :
    (selectNextSuggestion^[(["a"] : List String).length]
        ⟨"", ["a"], -1⟩).selectedSuggestionIndex = 0 ∧
    ¬ (selectNextSuggestion^[(["a"] : List String).length]
        ⟨"", ["a"], -1⟩).selectedSuggestionIndex = -1 := by
  decide

/-- Claim C7, amended: re-filtering always resets the cursor to `-1` (and the
candidate list is a pure function of the input and video list, so repeating
the same input yields the same candidates); and for a non-empty candidate
list of size `N`, calling `next()` exactly `N` times returns the cursor to its
starting position whenever that start is a valid index `0 ≤ s < N` — from the
reset position `-1` the cursor instead ends at `N - 1`. -/
theorem filter_resets_cursor_and_next_cycles_on_valid_cursor (current : String)
    (videos : List String) (st : SugState)
    (h0 : 0 ≤ st.selectedSuggestionIndex)
    (hN : st.selectedSuggestionIndex < st.filteredSuggestions.length) :
    (filterSuggestions current videos).2 = -1 ∧
    (selectNextSuggestion^[st.filteredSuggestions.length] st).selectedSuggestionIndex =
      st.selectedSuggestionIndex := by
  refine ⟨?_, ?_⟩
  · by_cases hin : jsToLower current = "" <;> simp [filterSuggestions, hin]
  · obtain ⟨-, hc⟩ := selectNext_iterate st.filteredSuggestions.length st h0 hN
    rw [hc]
    rw [show st.selectedSuggestionIndex + (st.filteredSuggestions.length : Int) =
      st.selectedSuggestionIndex + (st.filteredSuggestions.length : Int) * 1 by ring]
    rw [Int.add_mul_emod_self_left]
    exact Int.emod_eq_of_lt h0 hN

/-- Witness for `filter_resets_cursor_and_next_cycles_on_valid_cursor` with
candidates `["a", "b"]` and starting cursor `0`. -/
theorem filter_resets_cursor_and_next_cycles_on_valid_cursor_witness :
    ((0 : Int) ≤ (⟨"x", ["a", "b"], 0⟩ : SugState).selectedSuggestionIndex ∧
      (⟨"x", ["a", "b"], 0⟩ : SugState).selectedSuggestionIndex <
        (⟨"x", ["a", "b"], 0⟩ : SugState).filteredSuggestions.length) ∧
    ((filterSuggestions "v" []).2 = -1 ∧
      (selectNextSuggestion^[(⟨"x", ["a", "b"], 0⟩ : SugState).filteredSuggestions.length]
          (⟨"x", ["a", "b"], 0⟩ : SugState)).selectedSuggestionIndex =
        (⟨"x", ["a", "b"], 0⟩ : SugState).selectedSuggestionIndex) :=
  ⟨⟨by decide, by decide⟩,
    filter_resets_cursor_and_next_cycles_on_valid_cursor "v" [] ⟨"x", ["a", "b"], 0⟩
      (by decide) (by decide)⟩

/-- Claim C8: attempting to send while the socket is not open appends exactly
one error-severity entry, transmits nothing, and leaves the current input text
unchanged for resubmission; a successful send transmits the payload and clears
the input. -/
theorem send_when_not_connected_reports_and_preserves_input (st : AppState)
    (jsonMessage : String) :
    (sendOverSocket false jsonMessage st).1.messages =
      st.messages ++ [⟨"WebSocket not connected.", .error⟩] ∧
    (sendOverSocket false jsonMessage st).2 = none ∧
    (sendOverSocket false jsonMessage st).1.currentCommand = st.currentCommand ∧
    (sendOverSocket true jsonMessage st).2 = some jsonMessage ∧
    (sendOverSocket true jsonMessage st).1.currentCommand = "" := by
  simp [sendOverSocket, rawAppend]

/-- Claim C9: each inbound message gets exactly one severity, with fixed
precedence — parsed JSON with an `error` field is `error`, else a `status`
field gives `status`, else `info` (a `videos` array refreshing the video
vocabulary); on a JSON parse failure the raw text is `debug` when it contains
"debug" case-insensitively, else `error` when it contains "error", else
`info`. -/
theorem inbound_classification_precedence (videoList : List String)
    (err status : Option String) (videos : Option (List String))
    (stringified raw : String) :
    (classifyInbound videoList (.json err status videos stringified)).1.type =
      (if err.isSome then .error else if status.isSome then .status else .info) ∧
    (classifyInbound videoList (.json err status videos stringified)).2 =
      videos.getD videoList ∧
    (classifyInbound videoList (.text raw)).1 =
      ⟨raw, if jsIncludes (jsToLower raw) "debug" then .debug
            else if jsIncludes (jsToLower raw) "error" then .error
            else .info⟩ ∧
    (classifyInbound [] (.json (some "boom") (some "ok") none "r")).1 =
      ⟨"boom", .error⟩ ∧
    (classifyInbound [] (.text "a DeBuG trace with error")).1.type = .debug ∧
    (classifyInbound [] (.text "an Error!")).1.type = .error ∧
    (classifyInbound [] (.text "plain note")).1.type = .info := by
  refine ⟨?_, ?_, rfl, by decide, by decide, by decide, by decide⟩
  · cases err <;> cases status <;> rfl
  · cases videos <;> rfl

/-- Claim C10: the suggestion cursor is always `-1` or a valid index — the
invariant is established by `filterSuggestions` (cursor reset to `-1`) and
preserved by `selectNextSuggestion` and `selectPrevSuggestion` — and on an
empty candidate list both `next()` and `previous()` are no-ops, leaving the
whole state (cursor and current input text included) unchanged. -/
theorem cursor_always_valid_and_empty_is_noop (st : SugState) (current : String)
    (videos : List String) (h : cursorInv st) :
    cursorInv (selectNextSuggestion st) ∧
    cursorInv (selectPrevSuggestion st) ∧
    cursorInv ⟨current, (filterSuggestions current videos).1,
      (filterSuggestions current videos).2⟩ ∧
    (st.filteredSuggestions = [] →
      selectNextSuggestion st = st ∧ selectPrevSuggestion st = st) := by
  have hfilter : (filterSuggestions current videos).2 = -1 := by
    by_cases hin : jsToLower current = "" <;> simp [filterSuggestions, hin]
  refine ⟨?_, ?_, Or.inl hfilter, fun he => ?_⟩
  · by_cases hlen : 0 < st.filteredSuggestions.length
    · have hN0 : (0 : Int) < st.filteredSuggestions.length := by exact_mod_cast hlen
      have h1 : 0 ≤ st.selectedSuggestionIndex + 1 := by
        rcases h with h' | ⟨h', -⟩ <;> omega
      unfold selectNextSuggestion
      rw [if_pos hlen]
      right
      constructor
      · show 0 ≤ jsRem _ _
        unfold jsRem
        rw [if_pos h1]
        exact Int.emod_nonneg _ (ne_of_gt hN0)
      · show jsRem _ _ < _
        unfold jsRem
        rw [if_pos h1]
        exact Int.emod_lt_of_pos _ hN0
    · unfold selectNextSuggestion
      rw [if_neg hlen]
      exact h
  · by_cases hlen : 0 < st.filteredSuggestions.length
    · have hN0 : (0 : Int) < st.filteredSuggestions.length := by exact_mod_cast hlen
      unfold selectPrevSuggestion
      rw [if_pos hlen]
      right
      show (0 : Int) ≤ (if st.selectedSuggestionIndex - 1 < 0
            then (st.filteredSuggestions.length : Int) - 1
            else st.selectedSuggestionIndex - 1) ∧
          (if st.selectedSuggestionIndex - 1 < 0
            then (st.filteredSuggestions.length : Int) - 1
            else st.selectedSuggestionIndex - 1) < (st.filteredSuggestions.length : Int)
      by_cases hneg : st.selectedSuggestionIndex - 1 < 0
      · rw [if_pos hneg]
        omega
      · rw [if_neg hneg]
        rcases h with h' | ⟨-, h'⟩ <;> omega
    · unfold selectPrevSuggestion
      rw [if_neg hlen]
      exact h
  · have hlen : ¬ 0 < st.filteredSuggestions.length := by simp [he]
    constructor
    · unfold selectNextSuggestion
      rw [if_neg hlen]
    · unfold selectPrevSuggestion
      rw [if_neg hlen]

/-- Witness for `cursor_always_valid_and_empty_is_noop` at the empty state. -/
theorem cursor_always_valid_and_empty_is_noop_witness :
    cursorInv ⟨"", [], -1⟩ ∧
    (cursorInv (selectNextSuggestion ⟨"", [], -1⟩) ∧
      cursorInv (selectPrevSuggestion ⟨"", [], -1⟩) ∧
      cursorInv ⟨"v", (filterSuggestions "v" []).1, (filterSuggestions "v" []).2⟩ ∧
      ((⟨"", [], -1⟩ : SugState).filteredSuggestions = [] →
        selectNextSuggestion ⟨"", [], -1⟩ = ⟨"", [], -1⟩ ∧
        selectPrevSuggestion ⟨"", [], -1⟩ = ⟨"", [], -1⟩)) :=
  ⟨by decide, cursor_always_valid_and_empty_is_noop ⟨"", [], -1⟩ "v" [] (by decide)⟩

end LedController
